import Mathlib

/-!
# Verification of `MATQseq/remultiplex.py`

A shallow embedding in Lean 4 of the parallel FASTQ remultiplexing script:
barcode generation (`generate_barcodes`), per-file record tagging
(`process_single_file`), the parallel coordinator / aggregating writer
(`process_files_parallel`), and the barcode-mapping table written by `main`.

Modelling conventions:
* a text file is a list of lines (without their trailing newline); Python's
  `f.readline()` at end-of-file returns the empty string, modelled by reading
  past the end of the list;
* an I/O or decoding error raised while reading a particular line is modelled
  by that line being `Option.none` in the file's line list;
* Python's `str.strip()` is modelled at the character-list level, stripping
  ASCII whitespace from both ends;
* concurrency (`ProcessPoolExecutor` + `as_completed`) is modelled by an
  arbitrary completion order, a list of file indices; each submitted future
  corresponds to one index.
-/

/-- The nucleotide alphabet, in the order the Python list literal gives it:
`nucleotides = ['A', 'T', 'C', 'G']`. -/
def nucleotides : List Char := ['A', 'T', 'C', 'G']

/-- `itertools.product(nucleotides, repeat=n)`: all length-`n` tuples, the
leftmost position most significant, positions ranging over `nucleotides` in
list order. -/
def combos : Nat → List (List Char)
  | 0 => [[]]
  | n + 1 => nucleotides.flatMap (fun c => (combos n).map (fun t => c :: t))

/-- The `for combo in itertools.product(...)` loop body of `generate_barcodes`:
append `''.join(combo)`, then `break` once `len(barcodes) >= num_files`. -/
def genLoop (num_files : Nat) : List (List Char) → List String → List String
  | [], barcodes => barcodes
  | combo :: rest, barcodes =>
    let barcodes2 := barcodes ++ [String.mk combo]
    if num_files ≤ barcodes2.length then barcodes2 else genLoop num_files rest barcodes2

/-- `generate_barcodes(num_files, barcode_length)`: run the product loop with
early break, then return `barcodes[:num_files]`. -/
def generate_barcodes (num_files : Nat) (barcode_length : Nat) : List String :=
  (genLoop num_files (combos barcode_length) []).take num_files

/-- Rank of a nucleotide in the symbol order A<T<C<G. -/
def nucRank (c : Char) : Nat :=
  if c = 'A' then 0 else if c = 'T' then 1 else if c = 'C' then 2 else 3

/-- Strict lexicographic order on equal-length nucleotide words, with the
symbol order A<T<C<G. -/
def lexLt : List Char → List Char → Bool
  | [], [] => false
  | [], _ :: _ => true
  | _ :: _, [] => false
  | a :: as, b :: bs => decide (nucRank a < nucRank b) || (a = b && lexLt as bs)

/-- `lexLt` lifted to barcode strings. -/
def bcLt (s t : String) : Bool := lexLt s.data t.data

-- ### Lemmas about the barcode generator

theorem genLoop_take (num_files : Nat) :
    ∀ (l : List (List Char)) (acc : List String),
      (genLoop num_files l acc).take num_files =
        (acc ++ l.map (fun c => String.mk c)).take num_files := by
  intro l
  induction l with
  | nil => intro acc; simp [genLoop]
  | cons c rest ih =>
    intro acc
    show (if num_files ≤ (acc ++ [String.mk c]).length then acc ++ [String.mk c]
          else genLoop num_files rest (acc ++ [String.mk c])).take num_files = _
    by_cases h : num_files ≤ (acc ++ [String.mk c]).length
    · rw [if_pos h]
      rw [show acc ++ (c :: rest).map (fun c => String.mk c)
            = (acc ++ [String.mk c]) ++ rest.map (fun c => String.mk c) by simp]
      exact (List.take_append_of_le_length h).symm
    · rw [if_neg h, ih (acc ++ [String.mk c])]
      simp

theorem generate_barcodes_eq (num_files barcode_length : Nat) :
    generate_barcodes num_files barcode_length =
      ((combos barcode_length).take num_files).map (fun c => String.mk c) := by
  unfold generate_barcodes
  rw [genLoop_take, List.nil_append, List.map_take]

theorem combos_length (n : Nat) : (combos n).length = 4 ^ n := by
  induction n with
  | zero => rfl
  | succ n ih =>
    show (nucleotides.flatMap _).length = _
    rw [List.length_flatMap]
    simp [nucleotides, ih, pow_succ]
    ring

theorem combos_mem (n : Nat) (l : List Char) :
    l ∈ combos n ↔ l.length = n ∧ ∀ c ∈ l, c ∈ nucleotides := by
  induction n generalizing l with
  | zero =>
    constructor
    · intro h; simp [combos] at h; simp [h]
    · intro ⟨h1, _⟩
      rw [List.length_eq_zero] at h1
      simp [combos, h1]
  | succ n ih =>
    constructor
    · intro h
      simp only [combos, List.mem_flatMap, List.mem_map] at h
      obtain ⟨c, hc, t, ht, rfl⟩ := h
      obtain ⟨hlen, hmem⟩ := (ih t).mp ht
      refine ⟨by simp [hlen], ?_⟩
      intro x hx
      rcases List.mem_cons.mp hx with rfl | hx
      · exact hc
      · exact hmem x hx
    · intro ⟨h1, h2⟩
      match l with
      | [] => simp at h1
      | c :: t =>
        simp only [combos, List.mem_flatMap, List.mem_map]
        refine ⟨c, h2 c (List.mem_cons_self c t), t, ?_, rfl⟩
        exact (ih t).mpr ⟨by simpa using h1, fun x hx => h2 x (List.mem_cons_of_mem c hx)⟩

theorem combos_nodup (n : Nat) : (combos n).Nodup := by
  induction n with
  | zero => simp [combos]
  | succ n ih =>
    show (nucleotides.flatMap _).Nodup
    rw [List.nodup_flatMap]
    constructor
    · intro c _
      exact ih.map (fun a b h => by injection h)
    · have hnuc : nucleotides.Pairwise (· ≠ ·) := by decide
      refine hnuc.imp ?_
      intro a b hab
      rw [Function.onFun, List.disjoint_left]
      rintro x hxa hxb
      simp only [List.mem_map] at hxa hxb
      obtain ⟨t, _, rfl⟩ := hxa
      obtain ⟨t', _, heq⟩ := hxb
      exact hab (by injection heq; simp_all)

theorem combos_sorted (n : Nat) :
    (combos n).Pairwise (fun a b => lexLt a b = true) := by
  induction n with
  | zero => simp [combos]
  | succ n ih =>
    show (nucleotides.flatMap _).Pairwise _
    rw [List.pairwise_flatMap]
    constructor
    · intro c _
      refine List.Pairwise.map _ ?_ ih
      intro a b hab
      simp [lexLt, hab]
    · have hnuc : nucleotides.Pairwise (fun a b => nucRank a < nucRank b) := by decide
      refine hnuc.imp ?_
      intro a b hab
      intro x hx y hy
      simp only [List.mem_map] at hx hy
      obtain ⟨t, _, rfl⟩ := hx
      obtain ⟨t', _, rfl⟩ := hy
      simp [lexLt, hab]

theorem string_mk_injective : Function.Injective String.mk := by
  intro a b h
  injection h

-- ### Claim C1

/-- C1: for every `N ≤ 4^L`, `generate_barcodes N L` returns exactly `N`
pairwise-distinct strings, each of length `L` over `{A,T,C,G}`, equal to the
first `N` elements of the lexicographic enumeration under A<T<C<G (the list is
lexicographically sorted and downward closed: any alphabet word of length `L`
not in the output is lexicographically above every output element), and the
result is a pure function of `(N, L)` (repeated calls agree). -/
theorem generate_barcodes_correct (N L : Nat) (h : N ≤ 4 ^ L) :
    (generate_barcodes N L).length = N ∧
    (generate_barcodes N L).Nodup ∧
    (∀ b ∈ generate_barcodes N L, b.length = L ∧ ∀ c ∈ b.data, c ∈ nucleotides) ∧
    (generate_barcodes N L).Pairwise (fun s t => bcLt s t = true) ∧
    (∀ w : List Char, w.length = L → (∀ c ∈ w, c ∈ nucleotides) →
      String.mk w ∉ generate_barcodes N L →
      ∀ b ∈ generate_barcodes N L, bcLt b (String.mk w) = true) ∧
    generate_barcodes N L = generate_barcodes N L := by
  rw [generate_barcodes_eq]
  refine ⟨?_, ?_, ?_, ?_, ?_, rfl⟩
  · rw [List.length_map, List.length_take, combos_length]
    omega
  · exact (((List.take_sublist N _).nodup (combos_nodup L)).map string_mk_injective)
  · intro b hb
    rw [List.mem_map] at hb
    obtain ⟨w, hw, rfl⟩ := hb
    have hw' := List.take_subset N _ hw
    obtain ⟨hlen, hmem⟩ := (combos_mem L w).mp hw'
    exact ⟨hlen, fun c hc => hmem c hc⟩
  · refine List.Pairwise.map _ ?_ ((combos_sorted L).sublist (List.take_sublist N _))
    intro a b hab
    exact hab
  · intro w hwlen hwmem hnot b hb
    have hwcombos : w ∈ combos L := (combos_mem L w).mpr ⟨hwlen, hwmem⟩
    rw [← List.take_append_drop N (combos L), List.mem_append] at hwcombos
    rcases hwcombos with hwtake | hwdrop
    · exact absurd (List.mem_map_of_mem _ hwtake) hnot
    · rw [List.mem_map] at hb
      obtain ⟨a, ha, rfl⟩ := hb
      have hpair := List.pairwise_append.mp
        ((List.take_append_drop N (combos L)).symm ▸ combos_sorted L)
      exact hpair.2.2 a ha w hwdrop

/-- C1 witness: instantiation at `N = 5`, `L = 2`. -/
theorem generate_barcodes_correct_witness :
    5 ≤ 4 ^ 2 ∧
    ((generate_barcodes 5 2).length = 5 ∧
     (generate_barcodes 5 2).Nodup ∧
     (∀ b ∈ generate_barcodes 5 2, b.length = 2 ∧ ∀ c ∈ b.data, c ∈ nucleotides) ∧
     (generate_barcodes 5 2).Pairwise (fun s t => bcLt s t = true) ∧
     (∀ w : List Char, w.length = 2 → (∀ c ∈ w, c ∈ nucleotides) →
       String.mk w ∉ generate_barcodes 5 2 →
       ∀ b ∈ generate_barcodes 5 2, bcLt b (String.mk w) = true) ∧
     generate_barcodes 5 2 = generate_barcodes 5 2) :=
  ⟨by norm_num, generate_barcodes_correct 5 2 (by norm_num)⟩

-- ### Claim C2

/-- C2 counterexample: with `N = 5 > 4 = 4^1`, `generate_barcodes` does not
report a configuration error; it returns normally with only `4^L = 4`
barcodes, fewer than the `5` requested. -/
theorem generate_barcodes_no_error_counterexample :
    generate_barcodes 5 1 = ["A", "T", "C", "G"] ∧ (generate_barcodes 5 1).length < 5 := by
  decide

/-- C2 amended: for `N > 4^L`, `generate_barcodes N L` raises no error and
caps its output at the full enumeration: it returns all `4^L` distinct valid
barcodes (hence fewer than `N`). -/
theorem generate_barcodes_cap (N L : Nat) (h : 4 ^ L < N) :
    generate_barcodes N L = (combos L).map (fun c => String.mk c) ∧
    (generate_barcodes N L).length = 4 ^ L ∧
    (generate_barcodes N L).length < N ∧
    (generate_barcodes N L).Nodup := by
  have hfull : (combos L).take N = combos L :=
    List.take_of_length_le (by rw [combos_length]; omega)
  rw [generate_barcodes_eq, hfull]
  refine ⟨rfl, ?_, ?_, (combos_nodup L).map string_mk_injective⟩
  · rw [List.length_map, combos_length]
  · rw [List.length_map, combos_length]; omega

/-- C2 amended witness: instantiation at `N = 5`, `L = 1`. -/
theorem generate_barcodes_cap_witness :
    4 ^ 1 < 5 ∧
    (generate_barcodes 5 1 = (combos 1).map (fun c => String.mk c) ∧
     (generate_barcodes 5 1).length = 4 ^ 1 ∧
     (generate_barcodes 5 1).length < 5 ∧
     (generate_barcodes 5 1).Nodup) :=
  ⟨by norm_num, generate_barcodes_cap 5 1 (by norm_num)⟩

-- ### Record tagger: `process_single_file`

/-- ASCII whitespace, as stripped by Python's `str.strip()` (the Unicode
whitespace beyond ASCII is irrelevant to this development). -/
def isSpace (c : Char) : Bool :=
  c = ' ' || c = '\t' || c = '\n' || c = '\r' || c = '\x0b' || c = '\x0c'

/-- Python's `s.strip()`: remove leading and trailing whitespace. -/
def strip (s : String) : String :=
  String.mk (((s.data.dropWhile isSpace).reverse.dropWhile isSpace).reverse)

/-- One FASTQ record as held in the `sequences` list of the script: the
4-tuple `(header, sequence, quality_header, quality)`. The same shape also
serves as a raw (untagged) record of four input lines. -/
structure FastqRecord where
  header : String
  sequence : String
  qualityHeader : String
  quality : String
deriving DecidableEq

/-- `'I' * len(barcode)`: the fixed high-confidence Phred padding prepended to
the quality string. -/
def qualPad (barcode : String) : String :=
  String.mk (List.replicate barcode.length 'I')

/-- Lines 54-66 of the script applied to the four raw lines of one record:
each line is `.strip()`-ped as it is read, the barcode is prepended to the
sequence and `'I' * len(barcode)` to the quality. -/
def tagRecord (barcode : String) (r : FastqRecord) : FastqRecord :=
  { header := strip r.header
    sequence := barcode ++ strip r.sequence
    qualityHeader := strip r.qualityHeader
    quality := qualPad barcode ++ strip r.quality }

/-- A line of an input file: `some s` is a line read normally, `none` is a
line whose read raises an I/O or decoding error. -/
abbrev FileLine := Option String

/-- `f.readline()` at offset `i` into the remaining lines: past the end of
the file it returns `""`; a `none` line raises. -/
def readLineE (lines : List FileLine) (i : Nat) : Except Unit String :=
  match lines.get? i with
  | some (some s) => Except.ok s
  | some none => Except.error ()
  | none => Except.ok ""

/-- The `while count < chunk_size` loop of `process_single_file`: read the
header line and stop if it strips to `""`; otherwise read the next three
lines, emit the tagged record, and continue on the rest of the file. The
fuel is `chunk_size - count`. An error raised by any of the four reads
aborts the loop (propagating to the `except` handler). -/
def processLoopE (barcode : String) : Nat → List FileLine → Except Unit (List FastqRecord)
  | 0, _ => Except.ok []
  | fuel + 1, lines =>
    match readLineE lines 0 with
    | Except.error e => Except.error e
    | Except.ok headerRaw =>
      if strip headerRaw = "" then Except.ok []
      else
        match readLineE lines 1, readLineE lines 2, readLineE lines 3 with
        | Except.ok seqRaw, Except.ok qhRaw, Except.ok qRaw =>
          match processLoopE barcode fuel (lines.drop 4) with
          | Except.ok rest =>
            Except.ok (tagRecord barcode
              { header := headerRaw, sequence := seqRaw,
                qualityHeader := qhRaw, quality := qRaw } :: rest)
          | Except.error e => Except.error e
        | Except.error e, _, _ => Except.error e
        | _, Except.error e, _ => Except.error e
        | _, _, Except.error e => Except.error e

/-- `process_single_file((file_path, barcode, chunk_size))`: run the read
loop; the `except` handler turns any raised error into an empty result. -/
def process_single_file (file : List FileLine) (barcode : String) (chunk_size : Nat) :
    List FastqRecord :=
  match processLoopE barcode chunk_size file with
  | Except.ok recs => recs
  | Except.error _ => []

/-- The error report printed by `process_single_file`'s `except` branch:
`f"Error processing {file_path}: {e}"` (the exception text is not modelled;
the reported prefix and file path are). Empty when no error is raised. -/
def processReport (file_path : String) (file : List FileLine) (barcode : String)
    (chunk_size : Nat) : List String :=
  match processLoopE barcode chunk_size file with
  | Except.ok _ => []
  | Except.error _ => ["Error processing " ++ file_path]

/-- An error-free file: every line reads normally. -/
def okLines (lines : List String) : List FileLine := lines.map some

/-- The four lines of a raw record, in file order. -/
def recLines (r : FastqRecord) : List String :=
  [r.header, r.sequence, r.qualityHeader, r.quality]

/-- The lines of a well-formed FASTQ file holding the given records. -/
def recsLines (recs : List FastqRecord) : List String :=
  (recs.map recLines).flatten

-- ### Lemmas about the read loop

theorem strip_empty : strip "" = "" := rfl

theorem processLoopE_nil (barcode : String) (fuel : Nat) :
    processLoopE barcode fuel [] = Except.ok [] := by
  cases fuel with
  | zero => rfl
  | succ fuel => rfl

theorem recsLines_cons (r : FastqRecord) (recs : List FastqRecord) :
    recsLines (r :: recs) = recLines r ++ recsLines recs := by
  simp [recsLines]

theorem okLines_append (a b : List String) :
    okLines (a ++ b) = okLines a ++ okLines b := by
  simp [okLines]

/-- Reading one well-formed record (header not stripping to `""`) from the
front of a file emits its tagged form and continues on the rest. -/
theorem processLoopE_record_cons (barcode : String) (r : FastqRecord)
    (tail : List FileLine) (fuel : Nat) (hr : strip r.header ≠ "") :
    processLoopE barcode (fuel + 1) (okLines (recLines r) ++ tail) =
      (processLoopE barcode fuel tail).map (fun rest => tagRecord barcode r :: rest) := by
  have h0 : readLineE (okLines (recLines r) ++ tail) 0 = Except.ok r.header := rfl
  have h1 : readLineE (okLines (recLines r) ++ tail) 1 = Except.ok r.sequence := rfl
  have h2 : readLineE (okLines (recLines r) ++ tail) 2 = Except.ok r.qualityHeader := rfl
  have h3 : readLineE (okLines (recLines r) ++ tail) 3 = Except.ok r.quality := rfl
  have h4 : (okLines (recLines r) ++ tail).drop 4 = tail := rfl
  simp only [processLoopE, h0, h1, h2, h3, h4, hr, if_neg, ite_false]
  cases hrec : processLoopE barcode fuel tail with
  | ok rest => simp [Except.map, hrec, tagRecord]
  | error e => simp [Except.map, hrec]

/-- Reading a prefix of `recs.length` well-formed records consumes them into
their tagged forms, leaving the loop to continue on the remaining lines with
the remaining fuel. -/
theorem processLoopE_records_append (barcode : String) (recs : List FastqRecord)
    (tail : List FileLine) (fuel : Nat)
    (hrecs : ∀ r ∈ recs, strip r.header ≠ "") (hfuel : recs.length ≤ fuel) :
    processLoopE barcode fuel (okLines (recsLines recs) ++ tail) =
      (processLoopE barcode (fuel - recs.length) tail).map
        (fun rest => recs.map (tagRecord barcode) ++ rest) := by
  induction recs generalizing fuel with
  | nil =>
    simp only [recsLines, List.map_nil, List.flatten_nil, okLines, List.nil_append,
      List.length_nil, Nat.sub_zero, List.map_nil]
    cases hres : processLoopE barcode fuel tail with
    | ok rest => simp [Except.map, hres]
    | error e => simp [Except.map, hres]
  | cons r rest ih =>
    match fuel, hfuel with
    | fuel + 1, hfuel =>
      rw [recsLines_cons, okLines_append, List.append_assoc]
      rw [processLoopE_record_cons barcode r _ fuel (hrecs r (List.mem_cons_self r rest))]
      rw [ih fuel (fun x hx => hrecs x (List.mem_cons_of_mem r hx)) (by simpa using hfuel)]
      cases hres : processLoopE barcode (fuel - rest.length) tail with
      | ok l =>
        simp only [List.length_cons, Nat.succ_sub_succ]
        simp [Except.map, hres]
      | error e =>
        simp only [List.length_cons, Nat.succ_sub_succ]
        simp [Except.map, hres]

/-- A well-formed file of `recs.length ≤ chunk_size` records is read in
full: the loop succeeds and returns exactly the tagged records, in order. -/
theorem processLoopE_wellformed (barcode : String) (recs : List FastqRecord)
    (chunk_size : Nat) (hrecs : ∀ r ∈ recs, strip r.header ≠ "")
    (hfuel : recs.length ≤ chunk_size) :
    processLoopE barcode chunk_size (okLines (recsLines recs)) =
      Except.ok (recs.map (tagRecord barcode)) := by
  have h := processLoopE_records_append barcode recs [] chunk_size hrecs hfuel
  rw [List.append_nil] at h
  rw [h, processLoopE_nil]
  simp [Except.map]

/-- `process_single_file` on a well-formed file small enough for one chunk
returns one tagged record per input record, in input order. -/
theorem process_single_file_wellformed (barcode : String) (recs : List FastqRecord)
    (chunk_size : Nat) (hrecs : ∀ r ∈ recs, strip r.header ≠ "")
    (hfuel : recs.length ≤ chunk_size) :
    process_single_file (okLines (recsLines recs)) barcode chunk_size =
      recs.map (tagRecord barcode) := by
  unfold process_single_file
  rw [processLoopE_wellformed barcode recs chunk_size hrecs hfuel]
-- ### Claim C3

/-- C3 (code-bug exhibit): a well-formed file of two complete records, read
with `chunk_size = 1`, yields only one tagged record — `process_single_file`
silently stops at `chunk_size` records and does not cover the whole file. -/
theorem process_single_file_truncates :
    (process_single_file
        (okLines (recsLines
          [{ header := "@r1", sequence := "AC", qualityHeader := "+", quality := "FF" },
           { header := "@r2", sequence := "GT", qualityHeader := "+", quality := "FF" }]))
        "A" 1).length = 1 ∧
    (process_single_file
        (okLines (recsLines
          [{ header := "@r1", sequence := "AC", qualityHeader := "+", quality := "FF" },
           { header := "@r2", sequence := "GT", qualityHeader := "+", quality := "FF" }]))
        "A" 1).length ≠ 2 := by
  decide

-- ### Claim C4

/-- C4 counterexample: a 6-line file — one complete record followed by a
2-line trailing partial record — yields 2 tagged records, not 1: the partial
record is emitted (its missing lines read as `""` at end-of-file), not
discarded. -/
theorem partial_record_emitted_counterexample :
    process_single_file (okLines ["@r1", "ACGT", "+", "IIII", "@r2", "ACGT"]) "A" 10 =
      [{ header := "@r1", sequence := "AACGT", qualityHeader := "+", quality := "IIIII" },
       { header := "@r2", sequence := "AACGT", qualityHeader := "", quality := "I" }] ∧
    (process_single_file (okLines ["@r1", "ACGT", "+", "IIII", "@r2", "ACGT"]) "A" 10).length
      ≠ 1 := by
  decide

theorem processLoopE_partial (barcode : String) (tail : List String) (fuel : Nat)
    (h1 : 1 ≤ tail.length) (h3 : tail.length ≤ 3)
    (hhead : strip (tail.getD 0 "") ≠ "") :
    processLoopE barcode (fuel + 1) (okLines tail) =
      Except.ok [tagRecord barcode
        { header := tail.getD 0 "", sequence := tail.getD 1 "",
          qualityHeader := tail.getD 2 "", quality := tail.getD 3 "" }] := by
  rcases tail with _ | ⟨a, _ | ⟨b, _ | ⟨c, _ | ⟨d, t⟩⟩⟩⟩
  · simp at h1
  · have e0 : readLineE (okLines [a]) 0 = Except.ok a := rfl
    have e1 : readLineE (okLines [a]) 1 = Except.ok "" := rfl
    have e2 : readLineE (okLines [a]) 2 = Except.ok "" := rfl
    have e3 : readLineE (okLines [a]) 3 = Except.ok "" := rfl
    have e4 : (okLines [a]).drop 4 = [] := rfl
    have ha : strip a ≠ "" := by simpa using hhead
    simp only [processLoopE, e0, e1, e2, e3, e4, ha, if_neg, ite_false, processLoopE_nil]
    simp [List.getD]
  · have e0 : readLineE (okLines [a, b]) 0 = Except.ok a := rfl
    have e1 : readLineE (okLines [a, b]) 1 = Except.ok b := rfl
    have e2 : readLineE (okLines [a, b]) 2 = Except.ok "" := rfl
    have e3 : readLineE (okLines [a, b]) 3 = Except.ok "" := rfl
    have e4 : (okLines [a, b]).drop 4 = [] := rfl
    have ha : strip a ≠ "" := by simpa using hhead
    simp only [processLoopE, e0, e1, e2, e3, e4, ha, if_neg, ite_false, processLoopE_nil]
    simp [List.getD]
  · have e0 : readLineE (okLines [a, b, c]) 0 = Except.ok a := rfl
    have e1 : readLineE (okLines [a, b, c]) 1 = Except.ok b := rfl
    have e2 : readLineE (okLines [a, b, c]) 2 = Except.ok c := rfl
    have e3 : readLineE (okLines [a, b, c]) 3 = Except.ok "" := rfl
    have e4 : (okLines [a, b, c]).drop 4 = [] := rfl
    have ha : strip a ≠ "" := by simpa using hhead
    simp only [processLoopE, e0, e1, e2, e3, e4, ha, if_neg, ite_false, processLoopE_nil]
    simp [List.getD]
  · simp at h3

/-- C4 amended: a file of `k` complete well-formed records followed by a
trailing partial record of 1 to 3 lines whose first line does not strip to
`""` yields `k + 1` tagged records (for `chunk_size ≥ k + 1`): the partial
record is emitted with its unread lines taken as `""`, and no error is
raised. -/
theorem partial_record_emitted (barcode : String) (recs : List FastqRecord)
    (tail : List String) (chunk_size : Nat)
    (hrecs : ∀ r ∈ recs, strip r.header ≠ "")
    (htail1 : 1 ≤ tail.length) (htail3 : tail.length ≤ 3)
    (hhead : strip (tail.getD 0 "") ≠ "")
    (hfuel : recs.length + 1 ≤ chunk_size) :
    process_single_file (okLines (recsLines recs ++ tail)) barcode chunk_size =
      recs.map (tagRecord barcode) ++
        [tagRecord barcode
          { header := tail.getD 0 "", sequence := tail.getD 1 "",
            qualityHeader := tail.getD 2 "", quality := tail.getD 3 "" }] := by
  unfold process_single_file
  rw [okLines_append]
  rw [processLoopE_records_append barcode recs (okLines tail) chunk_size hrecs (by omega)]
  have hge : 1 ≤ chunk_size - recs.length := by omega
  obtain ⟨fuel, hfueleq⟩ : ∃ fuel, chunk_size - recs.length = fuel + 1 :=
    ⟨chunk_size - recs.length - 1, by omega⟩
  rw [hfueleq, processLoopE_partial barcode tail fuel htail1 htail3 hhead]
  simp [Except.map]
/-- C4 amended witness: one complete record followed by the 2-line partial
`["@r2", "ACGT"]`, `chunk_size = 10`. -/
theorem partial_record_emitted_witness :
    process_single_file
        (okLines (recsLines
          [{ header := "@r1", sequence := "ACGT", qualityHeader := "+", quality := "IIII" }]
          ++ ["@r2", "ACGT"])) "A" 10 =
      [{ header := "@r1", sequence := "ACGT", qualityHeader := "+", quality := "IIII" }].map
          (tagRecord "A") ++
        [tagRecord "A" { header := "@r2", sequence := "ACGT",
                         qualityHeader := "", quality := "" }] :=
  partial_record_emitted "A"
    [{ header := "@r1", sequence := "ACGT", qualityHeader := "+", quality := "IIII" }]
    ["@r2", "ACGT"] 10 (by decide) (by decide) (by decide) (by decide) (by decide)

-- ### Claim C5

/-- C5: for every input record whose (stripped) sequence and quality lines
have equal length, the corresponding tagged record emitted by
`process_single_file` has `len(seq) = len(quality) = len(original) + len(barcode)`,
and its quality string starts with the fixed high-confidence symbol `'I'`
repeated `len(barcode)` times. -/
theorem tagging_preserves_length_invariant (barcode : String) (recs : List FastqRecord)
    (chunk_size i : Nat) (d : FastqRecord)
    (hrecs : ∀ r ∈ recs, strip r.header ≠ "") (hfuel : recs.length ≤ chunk_size)
    (hi : i < recs.length)
    (heq : (strip (recs.getD i d).sequence).length = (strip (recs.getD i d).quality).length) :
    ((process_single_file (okLines (recsLines recs)) barcode chunk_size).getD i d).sequence.length
        = (strip (recs.getD i d).sequence).length + barcode.length ∧
    ((process_single_file (okLines (recsLines recs)) barcode chunk_size).getD i d).quality.length
        = ((process_single_file (okLines (recsLines recs)) barcode chunk_size).getD i d).sequence.length ∧
    (∀ j < barcode.length,
      ((process_single_file (okLines (recsLines recs)) barcode chunk_size).getD i d).quality.data[j]?
        = some 'I') := by
  rw [process_single_file_wellformed barcode recs chunk_size hrecs hfuel]
  have hout : (recs.map (tagRecord barcode)).getD i d = tagRecord barcode (recs.getD i d) := by
    rw [List.getD_eq_getElem?_getD, List.getD_eq_getElem?_getD, List.getElem?_map,
      List.getElem?_eq_getElem hi]
    rfl
  rw [hout]
  have hqp : (qualPad barcode).length = barcode.length := by
    show (List.replicate barcode.length 'I').length = barcode.length
    rw [List.length_replicate]
  refine ⟨?_, ?_, ?_⟩
  · show (barcode ++ strip (recs.getD i d).sequence).length = _
    rw [String.length_append]
    omega
  · show (qualPad barcode ++ strip (recs.getD i d).quality).length
        = (barcode ++ strip (recs.getD i d).sequence).length
    rw [String.length_append, String.length_append, hqp, heq]
  · intro j hj
    show (qualPad barcode ++ strip (recs.getD i d).quality).data[j]? = some 'I'
    rw [String.data_append]
    rw [List.getElem?_append_left
      (by show j < (List.replicate barcode.length 'I').length; rw [List.length_replicate]; omega)]
    show (List.replicate barcode.length 'I')[j]? = some 'I'
    rw [List.getElem?_replicate_of_lt hj]

/-- C5 witness: one record with sequence `"ACG"` and quality `"FFF"`, barcode
`"TT"`, `chunk_size = 10`. -/
theorem tagging_preserves_length_invariant_witness :
    ((process_single_file
        (okLines (recsLines
          [{ header := "@r", sequence := "ACG", qualityHeader := "+", quality := "FFF" }]))
        "TT" 10).getD 0
          { header := "", sequence := "", qualityHeader := "", quality := "" }).sequence.length
      = (strip (([{ header := "@r", sequence := "ACG", qualityHeader := "+", quality := "FFF" }] : List FastqRecord).getD 0
          { header := "", sequence := "", qualityHeader := "", quality := "" }).sequence).length
        + ("TT" : String).length ∧
    ((process_single_file
        (okLines (recsLines
          [{ header := "@r", sequence := "ACG", qualityHeader := "+", quality := "FFF" }]))
        "TT" 10).getD 0
          { header := "", sequence := "", qualityHeader := "", quality := "" }).quality.length
      = ((process_single_file
        (okLines (recsLines
          [{ header := "@r", sequence := "ACG", qualityHeader := "+", quality := "FFF" }]))
        "TT" 10).getD 0
          { header := "", sequence := "", qualityHeader := "", quality := "" }).sequence.length ∧
    (∀ j < ("TT" : String).length,
      ((process_single_file
        (okLines (recsLines
          [{ header := "@r", sequence := "ACG", qualityHeader := "+", quality := "FFF" }]))
        "TT" 10).getD 0
          { header := "", sequence := "", qualityHeader := "", quality := "" }).quality.data[j]?
        = some 'I') :=
  tagging_preserves_length_invariant "TT"
    [{ header := "@r", sequence := "ACG", qualityHeader := "+", quality := "FFF" }]
    10 0 { header := "", sequence := "", qualityHeader := "", quality := "" }
    (by decide) (by decide) (by decide) (by decide)

-- ### Claim C10

theorem processLoopE_blank_header (barcode blank : String) (junk : List FileLine)
    (fuel : Nat) (h : strip blank = "") :
    processLoopE barcode (fuel + 1) (some blank :: junk) = Except.ok [] := by
  have e0 : readLineE (some blank :: junk) 0 = Except.ok blank := rfl
  simp only [processLoopE, e0, h, if_pos, ite_true]

/-- C10: the read loop stops exactly when the line at a record-header
position strips to `""` — all later lines are silently dropped with no
error — while lines at the sequence, quality-header, and quality positions
that strip to `""` do not stop reading and are carried into the emitted
record as empty strings. -/
theorem header_position_sentinel (barcode : String) (recs : List FastqRecord)
    (blank : String) (junk : List FileLine) (chunk_size : Nat)
    (hrecs : ∀ r ∈ recs, strip r.header ≠ "") (hblank : strip blank = "")
    (hfuel : recs.length < chunk_size) :
    processLoopE barcode chunk_size (okLines (recsLines recs) ++ (some blank :: junk)) =
      Except.ok (recs.map (tagRecord barcode)) ∧
    process_single_file (okLines (recsLines recs) ++ (some blank :: junk)) barcode chunk_size =
      recs.map (tagRecord barcode) ∧
    (∀ h s qh q : String, strip h ≠ "" → strip s = "" → strip qh = "" → strip q = "" →
      process_single_file (okLines [h, s, qh, q]) barcode chunk_size =
        [{ header := strip h, sequence := barcode, qualityHeader := "",
           quality := qualPad barcode }]) := by
  have hloop : processLoopE barcode chunk_size
      (okLines (recsLines recs) ++ (some blank :: junk)) =
      Except.ok (recs.map (tagRecord barcode)) := by
    rw [processLoopE_records_append barcode recs (some blank :: junk) chunk_size hrecs
      (by omega)]
    obtain ⟨fuel, hfueleq⟩ : ∃ fuel, chunk_size - recs.length = fuel + 1 :=
      ⟨chunk_size - recs.length - 1, by omega⟩
    rw [hfueleq, processLoopE_blank_header barcode blank junk fuel hblank]
    simp [Except.map]
  refine ⟨hloop, by unfold process_single_file; rw [hloop], ?_⟩
  intro h s qh q hh hs hqh hq
  obtain ⟨fuel, hcs⟩ : ∃ fuel, chunk_size = fuel + 1 := ⟨chunk_size - 1, by omega⟩
  have hfile : okLines [h, s, qh, q] =
      okLines (recLines { header := h, sequence := s, qualityHeader := qh, quality := q })
        ++ ([] : List FileLine) := by
    simp [okLines, recLines]
  unfold process_single_file
  rw [hcs, hfile,
    processLoopE_record_cons barcode
      { header := h, sequence := s, qualityHeader := qh, quality := q } [] fuel hh,
    processLoopE_nil]
  simp [Except.map, tagRecord, hs, hqh, hq]

/-- C10 witness: one well-formed record, then a whitespace-only line at the
next header position followed by junk; and a record whose non-header lines
are whitespace-only. -/
theorem header_position_sentinel_witness :
    (processLoopE "T" 5 (okLines (recsLines
        [{ header := "@r1", sequence := "AC", qualityHeader := "+", quality := "FF" }])
        ++ (some " " :: [some "@r2", some "AC", some "+", some "FF"])) =
      Except.ok ([{ header := "@r1", sequence := "AC", qualityHeader := "+", quality := "FF" }].map
        (tagRecord "T")) ∧
    process_single_file (okLines (recsLines
        [{ header := "@r1", sequence := "AC", qualityHeader := "+", quality := "FF" }])
        ++ (some " " :: [some "@r2", some "AC", some "+", some "FF"])) "T" 5 =
      [{ header := "@r1", sequence := "AC", qualityHeader := "+", quality := "FF" }].map
        (tagRecord "T") ∧
    (∀ h s qh q : String, strip h ≠ "" → strip s = "" → strip qh = "" → strip q = "" →
      process_single_file (okLines [h, s, qh, q]) "T" 5 =
        [{ header := strip h, sequence := "T", qualityHeader := "",
           quality := qualPad "T" }])) :=
  header_position_sentinel "T"
    [{ header := "@r1", sequence := "AC", qualityHeader := "+", quality := "FF" }]
    " " [some "@r2", some "AC", some "+", some "FF"] 5
    (by decide) (by decide) (by decide)

-- ### Aggregating writer and parallel coordinator

/-- The four output lines written for one record by
`write_sequences_to_file`, with their newlines. -/
def serializeRecord (r : FastqRecord) : String :=
  r.header ++ "\n" ++ r.sequence ++ "\n" ++ r.qualityHeader ++ "\n" ++ r.quality ++ "\n"

/-- `write_sequences_to_file(sequences, output_file)`: append each record's
four lines to the output content (opened in append mode). -/
def write_sequences_to_file (sequences : List FastqRecord) (output : String) : String :=
  sequences.foldl (fun out r => out ++ serializeRecord r) output

/-- The results of the submitted futures, one per `(file, barcode)` pair of
`zip(fastq_files, barcodes)`, in submission order. -/
def workerResults (files : List (List FileLine)) (barcodes : List String)
    (chunk_size : Nat) : List (List FastqRecord) :=
  (files.zip barcodes).map (fun p => process_single_file p.1 p.2 chunk_size)

/-- `process_files_parallel(fastq_files, barcodes, output_file, ...)`.
`prior` is the content sitting at the output path before the run; the
function first opens the path with mode `'wt'` and closes it, leaving it
empty, then appends each completed future's records as `as_completed`
yields them. `order` is that completion order (indices into the
submission list). The returned string is the final output content. -/
def process_files_parallel (prior : String) (files : List (List FileLine))
    (barcodes : List String) (chunk_size : Nat) (order : List Nat) : String :=
  let results := workerResults files barcodes chunk_size
  let created : String := ""
  order.foldl (fun out i =>
    let sequences := results.getD i []
    if sequences.isEmpty then out else write_sequences_to_file sequences out) created

/-- Concatenation of a list of strings. -/
def strConcat : List String → String
  | [] => ""
  | s :: rest => s ++ strConcat rest

/-- Python-dict insertion: `m[k] = v` keeps the key's original position on
update, else appends the pair. -/
def dictInsert (m : List (String × String)) (k v : String) : List (String × String) :=
  if m.any (fun p => p.1 == k) then m.map (fun p => if p.1 == k then (k, v) else p)
  else m ++ [(k, v)]

/-- The `barcode_mapping` dict built by `main`:
`barcode_mapping[file_path.name] = barcodes[i]` over the input list. -/
def barcode_mapping (names barcodes : List String) : List (String × String) :=
  (names.zip barcodes).foldl (fun m p => dictInsert m p.1 p.2) []

/-- The text written to the mapping file by `main`: the header row and one
tab-separated row per dict entry, in dict (insertion) order. -/
def mapping_file_content (names barcodes : List String) : String :=
  "Original_File\tBarcode\n" ++
    strConcat ((barcode_mapping names barcodes).map (fun p => p.1 ++ "\t" ++ p.2 ++ "\n"))

/-- The mapping file produced by a run of `main` over the given input file
names: the barcodes come from `generate_barcodes(len(fastq_files),
barcode_length)`, and the file is written before any processing starts, so
the worker count and chunk size play no part in it. -/
def run_mapping_file (names : List String) (barcode_length num_cores chunk_size : Nat) :
    String :=
  mapping_file_content names (generate_barcodes names.length barcode_length)

-- ### Lemmas about the writer and coordinator

theorem write_sequences_to_file_eq (sequences : List FastqRecord) (output : String) :
    write_sequences_to_file sequences output =
      output ++ strConcat (sequences.map serializeRecord) := by
  induction sequences generalizing output with
  | nil => simp [write_sequences_to_file, strConcat]
  | cons r rest ih =>
    show write_sequences_to_file rest (output ++ serializeRecord r) = _
    rw [ih]
    simp only [List.map_cons, strConcat]
    rw [String.append_assoc]

theorem strConcat_append (a b : List String) :
    strConcat (a ++ b) = strConcat a ++ strConcat b := by
  induction a with
  | nil => simp [strConcat]
  | cons s rest ih =>
    rw [List.cons_append]
    simp only [strConcat]
    rw [ih, String.append_assoc]

/-- The final output content is the concatenation, in completion order, of
the serialized records of each future's batch (skipping a batch writes the
same bytes as writing an empty batch). -/
theorem process_files_parallel_eq (prior : String) (files : List (List FileLine))
    (barcodes : List String) (chunk_size : Nat) (order : List Nat) :
    process_files_parallel prior files barcodes chunk_size order =
      strConcat ((order.map (fun i =>
        (workerResults files barcodes chunk_size).getD i [])).flatten.map serializeRecord) := by
  show List.foldl _ "" order = _
  have main : ∀ (ord : List Nat) (out : String),
      List.foldl (fun out i =>
        let sequences := (workerResults files barcodes chunk_size).getD i []
        if sequences.isEmpty then out else write_sequences_to_file sequences out) out ord =
      out ++ strConcat ((ord.map (fun i =>
        (workerResults files barcodes chunk_size).getD i [])).flatten.map serializeRecord) := by
    intro ord
    induction ord with
    | nil => intro out; simp [strConcat]
    | cons i rest ih =>
      intro out
      rw [List.foldl_cons, List.map_cons, List.flatten_cons, List.map_append, strConcat_append]
      by_cases hemp : ((workerResults files barcodes chunk_size).getD i []).isEmpty
      · simp only [hemp, if_pos, ite_true]
        rw [List.isEmpty_iff] at hemp
        rw [ih out, hemp]
        simp [strConcat]
      · simp only [hemp, if_neg, ite_false]
        rw [ih, write_sequences_to_file_eq]
        simp [String.append_assoc]
  rw [main order ""]
  rw [String.empty_append]

theorem generate_barcodes_length (N L : Nat) :
    (generate_barcodes N L).length = min N (4 ^ L) := by
  rw [generate_barcodes_eq, List.length_map, List.length_take, combos_length]

theorem dictInsert_fresh (m : List (String × String)) (k v : String)
    (h : ∀ p ∈ m, p.1 ≠ k) : dictInsert m k v = m ++ [(k, v)] := by
  unfold dictInsert
  rw [if_neg]
  intro hc
  rw [List.any_eq_true] at hc
  obtain ⟨p, hp, hpk⟩ := hc
  exact h p hp (by simpa using hpk)

theorem barcode_mapping_aux (names : List String) :
    ∀ (barcodes : List String) (acc : List (String × String)), names.Nodup →
      (∀ p ∈ acc, p.1 ∉ names) →
      (names.zip barcodes).foldl (fun m p => dictInsert m p.1 p.2) acc =
        acc ++ names.zip barcodes := by
  induction names with
  | nil => intro barcodes acc _ _; simp
  | cons n rest ih =>
    intro barcodes acc hnodup hacc
    cases barcodes with
    | nil => simp
    | cons b bs =>
      rw [List.zip_cons_cons, List.foldl_cons]
      rw [show dictInsert acc (n, b).1 (n, b).2 = acc ++ [(n, b)] from
        dictInsert_fresh acc n b
          (fun p hp he => hacc p hp (he ▸ List.mem_cons_self n rest))]
      rw [ih bs (acc ++ [(n, b)]) (List.nodup_cons.mp hnodup).2 ?_]
      · simp
      · intro p hp
        rcases List.mem_append.mp hp with h1 | h2
        · exact fun hm => hacc p h1 (List.mem_cons_of_mem n hm)
        · have : p = (n, b) := by simpa using h2
          rw [this]
          exact (List.nodup_cons.mp hnodup).1

/-- With pairwise-distinct file names (as produced by globbing one
directory), the `barcode_mapping` dict holds exactly the
`zip(fastq_files, barcodes)` pairs, in input order. -/
theorem barcode_mapping_eq_zip (names barcodes : List String) (hnodup : names.Nodup) :
    barcode_mapping names barcodes = names.zip barcodes := by
  unfold barcode_mapping
  rw [barcode_mapping_aux names barcodes [] hnodup (by simp)]
  rfl

theorem map_getD_range {α : Type} (l : List α) (d : α) :
    (List.range l.length).map (fun i => l.getD i d) = l := by
  apply List.ext_getElem
  · simp
  · intro i h1 h2
    simp only [List.getElem_map, List.getElem_range]
    rw [List.getD_eq_getElem?_getD, List.getElem?_eq_getElem h2]
    rfl

theorem flatten_map_filter_of_nil (g : Nat → List FastqRecord) (i : Nat) (hg : g i = [])
    (order : List Nat) :
    ((order.filter (fun j => j != i)).map g).flatten = (order.map g).flatten := by
  induction order with
  | nil => rfl
  | cons j rest ih =>
    rw [List.filter_cons]
    by_cases hj : j = i
    · subst hj
      simp only [bne_self_eq_false, if_neg, ite_false, Bool.false_eq_true]
      rw [ih, List.map_cons, List.flatten_cons, hg, List.nil_append]
    · rw [if_pos (by simpa using hj)]
      rw [List.map_cons, List.flatten_cons, ih, List.map_cons, List.flatten_cons]

-- ### Claim C9

/-- C9: `process_files_parallel` opens the output path with mode `'wt'` and
closes it before any worker result is written, so the final content never
depends on what was at the path before the run, and when every future yields
an empty batch (all files failed or empty) the path still holds a valid,
empty output. -/
theorem output_created_empty (prior prior2 : String) (files : List (List FileLine))
    (barcodes : List String) (chunk_size : Nat) (order : List Nat) :
    process_files_parallel prior files barcodes chunk_size order =
      process_files_parallel prior2 files barcodes chunk_size order ∧
    ((∀ i ∈ order, (workerResults files barcodes chunk_size).getD i [] = []) →
      process_files_parallel prior files barcodes chunk_size order = "") := by
  refine ⟨rfl, ?_⟩
  intro h
  rw [process_files_parallel_eq]
  have hflat : (order.map (fun i =>
      (workerResults files barcodes chunk_size).getD i [])).flatten = [] := by
    rw [List.flatten_eq_nil_iff]
    intro l hl
    rw [List.mem_map] at hl
    obtain ⟨i, hi, rfl⟩ := hl
    exact h i hi
  rw [hflat]
  rfl

/-- C9 witness: a pre-existing output content `"OLD"`, one input file whose
read errors (so every batch is empty). -/
theorem output_created_empty_witness :
    process_files_parallel "OLD" [[some "@r1", none]] ["A"] 5 [0] =
      process_files_parallel "" [[some "@r1", none]] ["A"] 5 [0] ∧
    process_files_parallel "OLD" [[some "@r1", none]] ["A"] 5 [0] = "" :=
  ⟨(output_created_empty "OLD" "" [[some "@r1", none]] ["A"] 5 [0]).1,
   (output_created_empty "OLD" "" [[some "@r1", none]] ["A"] 5 [0]).2 (by decide)⟩

-- ### Claim C8

/-- C8: two runs with the same input file list and the same barcode-length
configuration write byte-identical mapping files — the header row
`Original_File<TAB>Barcode` followed by one row per input file in input-list
order — whatever the worker count or chunk size, and with no dependence on
any completion order (the mapping file is written by `main` before the pool
starts). -/
theorem mapping_file_deterministic (names : List String) (L w1 w2 cs1 cs2 : Nat)
    (hnodup : names.Nodup) (hL : names.length ≤ 4 ^ L) :
    run_mapping_file names L w1 cs1 = run_mapping_file names L w2 cs2 ∧
    run_mapping_file names L w1 cs1 =
      "Original_File\tBarcode\n" ++
        strConcat ((names.zip (generate_barcodes names.length L)).map
          (fun p => p.1 ++ "\t" ++ p.2 ++ "\n")) ∧
    (barcode_mapping names (generate_barcodes names.length L)).length = names.length ∧
    (∀ i, i < names.length →
      (barcode_mapping names (generate_barcodes names.length L)).getD i ("", "") =
        (names.getD i "", (generate_barcodes names.length L).getD i "")) := by
  have hblen : (generate_barcodes names.length L).length = names.length := by
    rw [generate_barcodes_length]
    omega
  have hzlen : (names.zip (generate_barcodes names.length L)).length = names.length := by
    rw [List.length_zip, hblen]
    omega
  have hrows := barcode_mapping_eq_zip names (generate_barcodes names.length L) hnodup
  refine ⟨rfl, ?_, ?_, ?_⟩
  · show mapping_file_content names (generate_barcodes names.length L) = _
    unfold mapping_file_content
    rw [hrows]
  · rw [hrows, hzlen]
  · intro i hi
    rw [hrows]
    have hiz : i < (names.zip (generate_barcodes names.length L)).length := by omega
    rw [List.getD_eq_getElem?_getD, List.getElem?_eq_getElem hiz]
    show (names.zip (generate_barcodes names.length L)).get ⟨i, hiz⟩ = _
    rw [show (names.zip (generate_barcodes names.length L)).get ⟨i, hiz⟩
          = (names.zip (generate_barcodes names.length L))[i] from rfl]
    rw [List.getElem_zip]
    have h1 : i < names.length := hi
    have h2 : i < (generate_barcodes names.length L).length := by omega
    rw [List.getD_eq_getElem?_getD, List.getElem?_eq_getElem h1,
      List.getD_eq_getElem?_getD, List.getElem?_eq_getElem h2]
    rfl

/-- C8 witness: two input files, `L = 1`, worker counts 4 and 16, chunk
sizes 1000 and 2000. -/
theorem mapping_file_deterministic_witness :
    run_mapping_file ["a.fastq", "b.fastq"] 1 4 1000 =
      run_mapping_file ["a.fastq", "b.fastq"] 1 16 2000 ∧
    run_mapping_file ["a.fastq", "b.fastq"] 1 4 1000 =
      "Original_File\tBarcode\n" ++
        strConcat ((["a.fastq", "b.fastq"].zip
            (generate_barcodes (["a.fastq", "b.fastq"] : List String).length 1)).map
          (fun p => p.1 ++ "\t" ++ p.2 ++ "\n")) ∧
    (barcode_mapping ["a.fastq", "b.fastq"]
        (generate_barcodes (["a.fastq", "b.fastq"] : List String).length 1)).length
      = (["a.fastq", "b.fastq"] : List String).length ∧
    (∀ i, i < (["a.fastq", "b.fastq"] : List String).length →
      (barcode_mapping ["a.fastq", "b.fastq"]
          (generate_barcodes (["a.fastq", "b.fastq"] : List String).length 1)).getD i ("", "")
        = ((["a.fastq", "b.fastq"] : List String).getD i "",
           (generate_barcodes (["a.fastq", "b.fastq"] : List String).length 1).getD i "")) :=
  mapping_file_deterministic ["a.fastq", "b.fastq"] 1 4 16 1000 2000 (by decide) (by decide)

-- ### Claim C7

/-- C7: an I/O or decoding failure while reading one input file is caught
inside `process_single_file`, which reports it together with the offending
file path and returns an empty record list; the failed future contributes
nothing to the output — dropping it from the completion order leaves the
written output byte-identical — and the failed file still has its
`(name, barcode)` row in the `barcode_mapping` table, which `main` builds
from the file list and barcode list alone, before any tagging. -/
theorem failed_file_isolated (path barcode : String) (file : List FileLine)
    (chunk_size : Nat) (herr : processLoopE barcode chunk_size file = Except.error ())
    (prior : String) (files : List (List FileLine)) (barcodes : List String)
    (order : List Nat) (i : Nat)
    (hfi : files.getD i [] = file) (hbi : barcodes.getD i "" = barcode)
    (hif : i < files.length) (hib : i < barcodes.length)
    (names : List String) (hnames : names.Nodup) (hni : i < names.length) :
    process_single_file file barcode chunk_size = [] ∧
    processReport path file barcode chunk_size = ["Error processing " ++ path] ∧
    process_files_parallel prior files barcodes chunk_size order =
      process_files_parallel prior files barcodes chunk_size
        (order.filter (fun j => j != i)) ∧
    (names.getD i "", barcodes.getD i "") ∈ barcode_mapping names barcodes := by
  have hempty : process_single_file file barcode chunk_size = [] := by
    unfold process_single_file
    rw [herr]
  refine ⟨hempty, ?_, ?_, ?_⟩
  · unfold processReport
    rw [herr]
  · have hiz : i < (files.zip barcodes).length := by
      rw [List.length_zip]
      omega
    have hbatch : (workerResults files barcodes chunk_size).getD i [] = [] := by
      unfold workerResults
      rw [List.getD_eq_getElem?_getD, List.getElem?_map, List.getElem?_eq_getElem hiz]
      show process_single_file (files.zip barcodes)[i].1 (files.zip barcodes)[i].2
        chunk_size = []
      rw [List.getElem_zip]
      rw [List.getD_eq_getElem?_getD, List.getElem?_eq_getElem hif] at hfi
      rw [List.getD_eq_getElem?_getD, List.getElem?_eq_getElem hib] at hbi
      rw [show ((files[i], barcodes[i]) : List FileLine × String).1 = files[i] from rfl,
        show ((files[i], barcodes[i]) : List FileLine × String).2 = barcodes[i] from rfl]
      rw [show files[i] = file from hfi, show barcodes[i] = barcode from hbi]
      exact hempty
    rw [process_files_parallel_eq, process_files_parallel_eq,
      flatten_map_filter_of_nil (fun i => (workerResults files barcodes chunk_size).getD i [])
        i hbatch order]
  · rw [barcode_mapping_eq_zip names barcodes hnames]
    have hiz2 : i < (names.zip barcodes).length := by
      rw [List.length_zip]
      omega
    have hpair : (names.zip barcodes)[i] = (names.getD i "", barcodes.getD i "") := by
      rw [List.getElem_zip]
      rw [List.getD_eq_getElem?_getD, List.getElem?_eq_getElem hni,
        List.getD_eq_getElem?_getD, List.getElem?_eq_getElem hib]
      rfl
    exact hpair ▸ List.getElem_mem hiz2

/-- C7 witness: two input files, the first of which errors on its second
line; completion order delivers both futures. -/
theorem failed_file_isolated_witness :
    process_single_file [some "@r1", none] "A" 5 = [] ∧
    processReport "f1.fastq" [some "@r1", none] "A" 5 = ["Error processing " ++ "f1.fastq"] ∧
    process_files_parallel "" [[some "@r1", none], okLines ["@r2", "AC", "+", "FF"]]
        ["A", "T"] 5 [0, 1] =
      process_files_parallel "" [[some "@r1", none], okLines ["@r2", "AC", "+", "FF"]]
        ["A", "T"] 5 (([0, 1] : List Nat).filter (fun j => j != 0)) ∧
    ((["f1.fastq", "f2.fastq"] : List String).getD 0 "", (["A", "T"] : List String).getD 0 "")
      ∈ barcode_mapping ["f1.fastq", "f2.fastq"] ["A", "T"] :=
  failed_file_isolated "f1.fastq" "A" [some "@r1", none] 5 rfl ""
    [[some "@r1", none], okLines ["@r2", "AC", "+", "FF"]] ["A", "T"] [0, 1] 0
    (by decide) (by decide) (by decide) (by decide)
    ["f1.fastq", "f2.fastq"] (by decide) (by decide)

-- ### Claim C6

/-- The worker-pool results of a run over named, well-formed input files
`(name, records)`: each file's content is the lines of its records, and the
barcodes are `generate_barcodes(len(files), L)`. -/
def runResults (files : List (String × List FastqRecord)) (L chunk_size : Nat) :
    List (List FastqRecord) :=
  workerResults (files.map (fun f => okLines (recsLines f.2)))
    (generate_barcodes files.length L) chunk_size

/-- The output content of such a run, given the completion order. -/
def runOutput (files : List (String × List FastqRecord)) (L chunk_size : Nat)
    (prior : String) (order : List Nat) : String :=
  process_files_parallel prior (files.map (fun f => okLines (recsLines f.2)))
    (generate_barcodes files.length L) chunk_size order

/-- C6: in a run over `k` files whose record counts all fit in one chunk,
every submitted future is consumed exactly once; each file's batch is its
full record list tagged with its assigned barcode (contiguous, in original
relative order); the written output is the concatenation of the batches in
completion order; the total number of tagged records is `n1 + ... + nk`; and
the mapping table holds exactly `k` rows, one per input file, in input
order. -/
theorem coordinator_run_correct (files : List (String × List FastqRecord))
    (L chunk_size : Nat) (order : List Nat) (prior : String)
    (horder : order.Perm (List.range files.length))
    (hL : files.length ≤ 4 ^ L)
    (hwf : ∀ f ∈ files, ∀ r ∈ f.2, strip r.header ≠ "")
    (hfit : ∀ f ∈ files, f.2.length ≤ chunk_size)
    (hnames : (files.map Prod.fst).Nodup) :
    (∀ i, i < files.length → order.count i = 1) ∧
    (∀ i, i < files.length →
      (runResults files L chunk_size).getD i []
        = (files.getD i ("", [])).2.map
            (tagRecord ((generate_barcodes files.length L).getD i ""))) ∧
    runOutput files L chunk_size prior order =
      strConcat ((order.map (fun i =>
        (runResults files L chunk_size).getD i [])).flatten.map serializeRecord) ∧
    ((order.map (fun i => (runResults files L chunk_size).getD i [])).flatten).length
      = (files.map (fun f => f.2.length)).sum ∧
    barcode_mapping (files.map Prod.fst) (generate_barcodes files.length L)
      = (files.map Prod.fst).zip (generate_barcodes files.length L) ∧
    (barcode_mapping (files.map Prod.fst) (generate_barcodes files.length L)).length
      = files.length := by
  have hblen : (generate_barcodes files.length L).length = files.length := by
    rw [generate_barcodes_length]
    omega
  have hbatch : ∀ i, i < files.length →
      (runResults files L chunk_size).getD i []
        = (files.getD i ("", [])).2.map
            (tagRecord ((generate_barcodes files.length L).getD i "")) := by
    intro i hi
    unfold runResults workerResults
    have hiz : i < ((files.map (fun f => okLines (recsLines f.2))).zip
        (generate_barcodes files.length L)).length := by
      rw [List.length_zip, List.length_map, hblen]
      omega
    rw [List.getD_eq_getElem?_getD, List.getElem?_map, List.getElem?_eq_getElem hiz]
    show process_single_file
        ((files.map (fun f => okLines (recsLines f.2))).zip
          (generate_barcodes files.length L))[i].1
        ((files.map (fun f => okLines (recsLines f.2))).zip
          (generate_barcodes files.length L))[i].2 chunk_size = _
    rw [List.getElem_zip]
    have him : i < (files.map (fun f => okLines (recsLines f.2))).length := by
      rw [List.length_map]
      omega
    show process_single_file (files.map (fun f => okLines (recsLines f.2)))[i]
        (generate_barcodes files.length L)[i] chunk_size = _
    rw [List.getElem_map]
    have hmem : files[i] ∈ files := List.getElem_mem hi
    rw [process_single_file_wellformed _ _ _ (hwf files[i] hmem) (hfit files[i] hmem)]
    rw [List.getD_eq_getElem?_getD (files) i, List.getElem?_eq_getElem hi]
    rw [List.getD_eq_getElem?_getD (generate_barcodes files.length L) i,
      List.getElem?_eq_getElem (by omega : i < (generate_barcodes files.length L).length)]
    rfl
  refine ⟨?_, hbatch, ?_, ?_, ?_, ?_⟩
  · intro i hi
    rw [horder.count_eq i]
    exact List.count_eq_one_of_mem (List.nodup_range files.length) (List.mem_range.mpr hi)
  · unfold runOutput
    exact process_files_parallel_eq prior _ _ chunk_size order
  · rw [List.length_flatten, List.map_map]
    have hcong : order.map (List.length ∘ fun i => (runResults files L chunk_size).getD i [])
        = order.map (fun i => ((runResults files L chunk_size).getD i []).length) := rfl
    rw [hcong]
    have hsum := (horder.map
      (fun i => ((runResults files L chunk_size).getD i []).length)).sum_eq
    rw [hsum]
    have hcong2 : (List.range files.length).map
        (fun i => ((runResults files L chunk_size).getD i []).length)
        = (List.range files.length).map (fun i => (files.getD i ("", [])).2.length) := by
      apply List.map_congr_left
      intro i hi
      rw [hbatch i (List.mem_range.mp hi), List.length_map]
    rw [hcong2]
    have hcong3 : (List.range files.length).map (fun i => (files.getD i ("", [])).2.length)
        = ((List.range files.length).map (fun i => files.getD i ("", []))).map
            (fun f => f.2.length) := by
      rw [List.map_map]
      rfl
    rw [hcong3, map_getD_range files ("", [])]
  · exact barcode_mapping_eq_zip _ _ hnames
  · rw [barcode_mapping_eq_zip _ _ hnames, List.length_zip, List.length_map, hblen]
    omega

/-- C6 witness: two files with 2 and 1 records, `L = 1`, `chunk_size = 3`,
completion order `[1, 0]` (second file finishes first), prior output
content `"X"`. -/
theorem coordinator_run_correct_witness :
    (∀ i, i < ([("a.fastq",
        [{ header := "@a1", sequence := "AC", qualityHeader := "+", quality := "FF" },
         { header := "@a2", sequence := "GG", qualityHeader := "+", quality := "HH" }]),
       ("b.fastq",
        [{ header := "@b1", sequence := "T", qualityHeader := "+", quality := "F" }])] :
        List (String × List FastqRecord)).length → ([1, 0] : List Nat).count i = 1) ∧
    (∀ i, i < ([("a.fastq",
        [{ header := "@a1", sequence := "AC", qualityHeader := "+", quality := "FF" },
         { header := "@a2", sequence := "GG", qualityHeader := "+", quality := "HH" }]),
       ("b.fastq",
        [{ header := "@b1", sequence := "T", qualityHeader := "+", quality := "F" }])] :
        List (String × List FastqRecord)).length →
      (runResults [("a.fastq",
        [{ header := "@a1", sequence := "AC", qualityHeader := "+", quality := "FF" },
         { header := "@a2", sequence := "GG", qualityHeader := "+", quality := "HH" }]),
       ("b.fastq",
        [{ header := "@b1", sequence := "T", qualityHeader := "+", quality := "F" }])] 1 3).getD i []
        = (([("a.fastq",
        [{ header := "@a1", sequence := "AC", qualityHeader := "+", quality := "FF" },
         { header := "@a2", sequence := "GG", qualityHeader := "+", quality := "HH" }]),
       ("b.fastq",
        [{ header := "@b1", sequence := "T", qualityHeader := "+", quality := "F" }])] :
        List (String × List FastqRecord)).getD i ("", [])).2.map
            (tagRecord ((generate_barcodes ([("a.fastq",
        [{ header := "@a1", sequence := "AC", qualityHeader := "+", quality := "FF" },
         { header := "@a2", sequence := "GG", qualityHeader := "+", quality := "HH" }]),
       ("b.fastq",
        [{ header := "@b1", sequence := "T", qualityHeader := "+", quality := "F" }])] :
        List (String × List FastqRecord)).length 1).getD i ""))) ∧
    runOutput [("a.fastq",
        [{ header := "@a1", sequence := "AC", qualityHeader := "+", quality := "FF" },
         { header := "@a2", sequence := "GG", qualityHeader := "+", quality := "HH" }]),
       ("b.fastq",
        [{ header := "@b1", sequence := "T", qualityHeader := "+", quality := "F" }])] 1 3 "X" [1, 0] =
      strConcat ((([1, 0] : List Nat).map (fun i =>
        (runResults [("a.fastq",
        [{ header := "@a1", sequence := "AC", qualityHeader := "+", quality := "FF" },
         { header := "@a2", sequence := "GG", qualityHeader := "+", quality := "HH" }]),
       ("b.fastq",
        [{ header := "@b1", sequence := "T", qualityHeader := "+", quality := "F" }])] 1 3).getD i [])).flatten.map
          serializeRecord) ∧
    ((([1, 0] : List Nat).map (fun i =>
        (runResults [("a.fastq",
        [{ header := "@a1", sequence := "AC", qualityHeader := "+", quality := "FF" },
         { header := "@a2", sequence := "GG", qualityHeader := "+", quality := "HH" }]),
       ("b.fastq",
        [{ header := "@b1", sequence := "T", qualityHeader := "+", quality := "F" }])] 1 3).getD i [])).flatten).length
      = (([("a.fastq",
        [{ header := "@a1", sequence := "AC", qualityHeader := "+", quality := "FF" },
         { header := "@a2", sequence := "GG", qualityHeader := "+", quality := "HH" }]),
       ("b.fastq",
        [{ header := "@b1", sequence := "T", qualityHeader := "+", quality := "F" }])] :
        List (String × List FastqRecord)).map (fun f => f.2.length)).sum ∧
    barcode_mapping (([("a.fastq",
        [{ header := "@a1", sequence := "AC", qualityHeader := "+", quality := "FF" },
         { header := "@a2", sequence := "GG", qualityHeader := "+", quality := "HH" }]),
       ("b.fastq",
        [{ header := "@b1", sequence := "T", qualityHeader := "+", quality := "F" }])] :
        List (String × List FastqRecord)).map Prod.fst)
        (generate_barcodes ([("a.fastq",
        [{ header := "@a1", sequence := "AC", qualityHeader := "+", quality := "FF" },
         { header := "@a2", sequence := "GG", qualityHeader := "+", quality := "HH" }]),
       ("b.fastq",
        [{ header := "@b1", sequence := "T", qualityHeader := "+", quality := "F" }])] :
        List (String × List FastqRecord)).length 1)
      = (([("a.fastq",
        [{ header := "@a1", sequence := "AC", qualityHeader := "+", quality := "FF" },
         { header := "@a2", sequence := "GG", qualityHeader := "+", quality := "HH" }]),
       ("b.fastq",
        [{ header := "@b1", sequence := "T", qualityHeader := "+", quality := "F" }])] :
        List (String × List FastqRecord)).map Prod.fst).zip
          (generate_barcodes ([("a.fastq",
        [{ header := "@a1", sequence := "AC", qualityHeader := "+", quality := "FF" },
         { header := "@a2", sequence := "GG", qualityHeader := "+", quality := "HH" }]),
       ("b.fastq",
        [{ header := "@b1", sequence := "T", qualityHeader := "+", quality := "F" }])] :
        List (String × List FastqRecord)).length 1) ∧
    (barcode_mapping (([("a.fastq",
        [{ header := "@a1", sequence := "AC", qualityHeader := "+", quality := "FF" },
         { header := "@a2", sequence := "GG", qualityHeader := "+", quality := "HH" }]),
       ("b.fastq",
        [{ header := "@b1", sequence := "T", qualityHeader := "+", quality := "F" }])] :
        List (String × List FastqRecord)).map Prod.fst)
        (generate_barcodes ([("a.fastq",
        [{ header := "@a1", sequence := "AC", qualityHeader := "+", quality := "FF" },
         { header := "@a2", sequence := "GG", qualityHeader := "+", quality := "HH" }]),
       ("b.fastq",
        [{ header := "@b1", sequence := "T", qualityHeader := "+", quality := "F" }])] :
        List (String × List FastqRecord)).length 1)).length
      = ([("a.fastq",
        [{ header := "@a1", sequence := "AC", qualityHeader := "+", quality := "FF" },
         { header := "@a2", sequence := "GG", qualityHeader := "+", quality := "HH" }]),
       ("b.fastq",
        [{ header := "@b1", sequence := "T", qualityHeader := "+", quality := "F" }])] :
        List (String × List FastqRecord)).length :=
  coordinator_run_correct
    [("a.fastq",
      [{ header := "@a1", sequence := "AC", qualityHeader := "+", quality := "FF" },
       { header := "@a2", sequence := "GG", qualityHeader := "+", quality := "HH" }]),
     ("b.fastq",
      [{ header := "@b1", sequence := "T", qualityHeader := "+", quality := "F" }])]
    1 3 [1, 0] "X" (by decide) (by decide) (by decide) (by decide) (by decide)
